import Mathlib

/-!
Verification development for the RideWise bike-demand backend
(`backend/app.py`): a shallow embedding of the feature-derivation and
request-validation pipeline (endpoints `/predict/day`, `/predict/hour`,
`/upload-predict`), the bounded prediction history, and the peak-status
labeller, together with theorems settling the frozen claims about them.

Modelling conventions:
* JSON scalar payload values are `JVal` (number, string, null); numbers are
  rationals (the claims never depend on float rounding).
* `pandas.to_numeric(errors=coerce)` is `toNumOpt` (`none` = NaN); the later
  `fillna(0)` pass is `Option.getD 0`.  Non-finite literals (`inf`, `nan`)
  are modelled as coercion failures: every code path reachable here either
  rejects them (`int()` raises) or multiplies them by 0 into a value that is
  then NaN-filled to 0, so the end results agree.
* Feature-vector cells carry symbolic numbers: a rational, or
  `sin (2*pi*x)` / `cos (2*pi*x)` with rational phase `x` (`NumV`).  Every arithmetic
  operation the source performs on cells (products of coerced rationals,
  verbatim copies) stays inside this grammar, so the whole pipeline is
  computable and decidable.
* Python `str.strip`, `str.lower`, `split` are re-implemented structurally
  over `List Char` so that concrete runs reduce in the kernel.
* `pd.to_datetime` is modelled on ISO `YYYY-MM-DD` strings only (the format
  the UI sends); claims about dates quantify over successfully parsed dates.
* Date arithmetic follows CPython `datetime`: proleptic Gregorian calendar,
  `weekday = (ordinal + 6) % 7` with day ordinal 1 = 0001-01-01.
-/

/-! ### Character and string helpers (structural re-implementations) -/

/-- Whitespace characters recognised by Python `str.strip` (ASCII subset). -/
def isSpc (c : Char) : Bool :=
  c = ' ' || c = '\t' || c = '\n' || c = '\r' || c = '\x0b' || c = '\x0c'

/-- Strip leading and trailing whitespace from a character list. -/
def trimChars (cs : List Char) : List Char :=
  ((cs.dropWhile isSpc).reverse.dropWhile isSpc).reverse

/-- Lowercase every character. -/
def lowerChars (cs : List Char) : List Char :=
  cs.map Char.toLower

/-- Split a character list on a separator character, keeping empty segments
(the behaviour of Python `str.split(sep)`). -/
def splitOnCharFn (sep : Char) (cs : List Char) : List (List Char) :=
  cs.foldr
    (fun x acc =>
      match acc with
      | a :: as => if x = sep then [] :: a :: as else (x :: a) :: as
      | [] => [[x]])
    [[]]

/-- Join character-list segments with a separator (inverse of splitting). -/
def joinWithChar (sep : Char) : List (List Char) → List Char
  | [] => []
  | [a] => a
  | a :: rest => a ++ sep :: joinWithChar sep rest

/-- Numeric value of a digit list, most significant first. -/
def natOfDigits (cs : List Char) : ℕ :=
  cs.foldl (fun n c => n * 10 + (c.toNat - 48)) 0

/-- Validate and remove Python numeric-literal underscores: every underscore
must sit between two digits; returns `none` when one does not. -/
def stripUnderscores : List Char → Option (List Char)
  | [] => some []
  | '_' :: _ => none
  | c :: '_' :: rest =>
    if c.isDigit then
      match rest with
      | d :: _ => if d.isDigit then (stripUnderscores rest).map (c :: ·) else none
      | [] => none
    else none
  | c :: rest => (stripUnderscores rest).map (c :: ·)

/-! ### Numeric parsing (Python `float`, `int`, pandas `to_numeric`) -/

/-- Parse an unsigned decimal mantissa (`123`, `1.5`, `.5`, `5.`). -/
def parseMant (cs : List Char) : Option ℚ :=
  match splitOnCharFn '.' cs with
  | [ip] =>
    if ip ≠ [] ∧ ip.all Char.isDigit then some (natOfDigits ip) else none
  | [ip, fp] =>
    if (ip ≠ [] ∨ fp ≠ []) ∧ ip.all Char.isDigit ∧ fp.all Char.isDigit then
      some ((natOfDigits ip : ℚ) + (natOfDigits fp : ℚ) / (10 : ℚ) ^ fp.length)
    else none
  | _ => none

/-- Parse a signed integer exponent. -/
def parseExp (cs : List Char) : Option ℤ :=
  let p : ℤ × List Char :=
    match cs with
    | '-' :: rest => (-1, rest)
    | '+' :: rest => (1, rest)
    | rest => (1, rest)
  if p.2 ≠ [] ∧ p.2.all Char.isDigit then some (p.1 * natOfDigits p.2) else none

/-- Python `float(s)` restricted to finite decimal literals, as `Option ℚ`:
optional sign, decimal mantissa, optional exponent, underscores between
digits.  `inf`/`nan` return `none` (see module conventions). -/
def floatOfString (s : String) : Option ℚ :=
  let t := lowerChars (trimChars s.toList)
  let p : ℚ × List Char :=
    match t with
    | '-' :: rest => (-1, rest)
    | '+' :: rest => (1, rest)
    | rest => (1, rest)
  match stripUnderscores p.2 with
  | none => none
  | some body =>
    if body = "inf".toList ∨ body = "infinity".toList ∨ body = "nan".toList then
      none
    else
      match splitOnCharFn 'e' body with
      | [m] => (parseMant m).map (p.1 * ·)
      | [m, ex] =>
        match parseMant m, parseExp ex with
        | some q, some e => some (p.1 * q * (10 : ℚ) ^ e)
        | _, _ => none
      | _ => none

/-- Python `int(s)` on strings: optional sign, base-10 digits, underscores
between digits, surrounding whitespace allowed. -/
def intOfString (s : String) : Option ℤ :=
  let t := trimChars s.toList
  let p : ℤ × List Char :=
    match t with
    | '-' :: rest => (-1, rest)
    | '+' :: rest => (1, rest)
    | rest => (1, rest)
  match stripUnderscores p.2 with
  | none => none
  | some body =>
    if body ≠ [] ∧ body.all Char.isDigit then some (p.1 * natOfDigits body)
    else none

/-- Truncation toward zero, the behaviour of Python `int(float)`. -/
def ratTrunc (q : ℚ) : ℤ :=
  if 0 ≤ q.num then (q.num.natAbs / q.den : ℕ) else -((q.num.natAbs / q.den : ℕ) : ℤ)

/-! ### JSON payload values -/

/-- A JSON scalar as delivered in a request payload. -/
inductive JVal where
  | num (q : ℚ)
  | str (s : String)
  | null
deriving DecidableEq, Repr

/-- A JSON object payload: association list of field name to value. -/
abbrev Payload := List (String × JVal)

/-- `pandas.to_numeric(v, errors=coerce)` on a scalar; `none` models NaN. -/
def toNumOpt : JVal → Option ℚ
  | .num q => some q
  | .str s => floatOfString s
  | .null => none

/-- Python `int(v)` on a payload scalar; `none` models a raised exception. -/
def pyInt : JVal → Option ℤ
  | .num q => some (ratTrunc q)
  | .str s => intOfString s
  | .null => none

/-! ### Association-list primitives (Python dict / DataFrame columns) -/

/-- Look up a key (first match) in an association list. -/
def getKV {α : Type} : List (String × α) → String → Option α
  | [], _ => none
  | (k', v) :: rest, k => if k' = k then some v else getKV rest k

/-- Python-dict assignment: replace in place if present, else append. -/
def setKV {α : Type} : List (String × α) → String → α → List (String × α)
  | [], k, v => [(k, v)]
  | (k', v') :: rest, k, v =>
    if k' = k then (k, v) :: rest else (k', v') :: setKV rest k v

/-- Remove every binding of a key (Python `dict.pop` / `df.drop(columns)`). -/
def dropKV {α : Type} (l : List (String × α)) (k : String) : List (String × α) :=
  l.filter (fun kv => kv.1 ≠ k)

/-- Key-membership test (`k in d`). -/
def hasKV {α : Type} (l : List (String × α)) (k : String) : Bool :=
  (getKV l k).isSome

theorem getKV_setKV_self {α : Type} (l : List (String × α)) (k : String) (v : α) :
    getKV (setKV l k v) k = some v := by
  induction l with
  | nil => simp [setKV, getKV]
  | cons hd tl ih =>
    by_cases h : hd.1 = k
    · simp [setKV, getKV, h]
    · simp [setKV, getKV, h, ih]

theorem getKV_setKV_ne {α : Type} (l : List (String × α)) (k k' : String) (v : α)
    (h : k' ≠ k) : getKV (setKV l k v) k' = getKV l k' := by
  have hne : ¬ k = k' := fun hh => h (Eq.symm hh)
  induction l with
  | nil => simp [setKV, getKV, hne]
  | cons hd tl ih =>
    by_cases hk : hd.1 = k
    · simp [setKV, getKV, hk, hne, h]
    · by_cases hk' : hd.1 = k'
      · simp [setKV, getKV, hk, hk', hne, h]
      · simp [setKV, getKV, hk, hk', ih]

theorem getKV_dropKV_ne {α : Type} (l : List (String × α)) (k k' : String)
    (h : k' ≠ k) : getKV (dropKV l k) k' = getKV l k' := by
  have hne : ¬ k = k' := fun hh => h (Eq.symm hh)
  induction l with
  | nil => simp [dropKV, getKV]
  | cons hd tl ih =>
    simp only [dropKV, ne_eq, decide_not, List.filter_cons] at ih ⊢
    by_cases hk : hd.1 = k
    · simp [hk, hne, getKV, ih]
    · by_cases hk' : hd.1 = k'
      · simp [hk, hk', getKV, h]
      · simp [hk, hk', getKV, ih]

/-! ### Feature-vector cells -/

/-- A symbolic numeric value: a rational, or the sine/cosine of `2*pi*x`
for a rational phase `x` (the only irrational values the pipeline makes). -/
inductive NumV where
  | rat (x : ℚ)
  | sin2p (x : ℚ)
  | cos2p (x : ℚ)
deriving DecidableEq, Repr

/-- Real semantics of a symbolic numeric value. -/
noncomputable def NumV.toReal : NumV → ℝ
  | .rat x => (x : ℝ)
  | .sin2p x => Real.sin (2 * Real.pi * (x : ℝ))
  | .cos2p x => Real.cos (2 * Real.pi * (x : ℝ))

/-- A DataFrame cell: a still-raw payload value, a number, or NaN. -/
inductive Cell where
  | raw (v : JVal)
  | num (x : NumV)
  | nan
deriving DecidableEq, Repr

/-- The zero cell used by `fill_value=0` and `fillna(0)`. -/
def zeroCell : Cell := .num (.rat 0)

/-- A one-row DataFrame: ordered association of column name to cell. -/
abbrev RTable := List (String × Cell)

/-- `pd.to_numeric(cell, errors=coerce)` (`none` = NaN). -/
def cellNumOpt : Cell → Option ℚ
  | .raw v => toNumOpt v
  | .num (.rat q) => some q
  | .num _ => none
  | .nan => none

/-- One numeric-column pass: `pd.to_numeric(col, errors=coerce).fillna(0)`.
Already-numeric cells pass through unchanged; raw cells are coerced; NaN
becomes 0. -/
def coerceCell : Cell → Cell
  | .raw v => .num (.rat ((toNumOpt v).getD 0))
  | .num x => .num x
  | .nan => zeroCell

/-- Apply the numeric-column pass to every column whose name is in `cols`
(the source's `for c in numeric_cols: if c in df.columns: ...` loop). -/
def coercePass (cols : List String) (df : RTable) : RTable :=
  df.map (fun kv => (kv.1, if kv.1 ∈ cols then coerceCell kv.2 else kv.2))

/-- `df.reindex(columns=schema, fill_value=0)` on a one-row frame: one cell
per schema column, existing columns by name, missing ones filled with 0. -/
def reindex (schema : List String) (df : RTable) : List Cell :=
  schema.map (fun c => (getKV df c).getD zeroCell)

theorem getKV_coercePass (cols : List String) (df : RTable) (k : String) :
    getKV (coercePass cols df) k =
      (getKV df k).map (fun c => if k ∈ cols then coerceCell c else c) := by
  unfold coercePass at *
  induction df with
  | nil => simp [getKV]
  | cons hd tl ih =>
    by_cases hk : hd.1 = k
    · simp [getKV, hk]
    · simp [getKV, hk, ih]

theorem length_reindex (schema : List String) (df : RTable) :
    (reindex schema df).length = schema.length := by
  simp [reindex]

theorem getElem?_reindex (schema : List String) (df : RTable) (i : ℕ) :
    (reindex schema df)[i]? = (schema[i]?).map (fun c => (getKV df c).getD zeroCell) := by
  simp [reindex]

/-! ### Calendar dates (CPython `datetime` semantics) -/

/-- A calendar date in the proleptic Gregorian calendar. -/
structure Date where
  year : ℕ
  month : ℕ
  day : ℕ
deriving DecidableEq, Repr

/-- Gregorian leap-year test. -/
def isLeap (y : ℕ) : Bool :=
  (y % 4 == 0 && y % 100 != 0) || (y % 400 == 0)

/-- Number of days in a month. -/
def daysInMonth (y m : ℕ) : ℕ :=
  if m = 2 then (if isLeap y then 29 else 28)
  else if m = 4 ∨ m = 6 ∨ m = 9 ∨ m = 11 then 30
  else 31

/-- Cumulative days before month `m` of year `y` (months 1-12). -/
def daysBeforeMonth (y m : ℕ) : ℕ :=
  let k : ℕ := if isLeap y then 1 else 0
  match m with
  | 1 => 0
  | 2 => 31
  | 3 => 59 + k
  | 4 => 90 + k
  | 5 => 120 + k
  | 6 => 151 + k
  | 7 => 181 + k
  | 8 => 212 + k
  | 9 => 243 + k
  | 10 => 273 + k
  | 11 => 304 + k
  | _ => 334 + k

/-- Days in all years strictly before year `y` (year 1 is the first year). -/
def daysBeforeYear (y : ℕ) : ℕ :=
  365 * (y - 1) + (y - 1) / 4 + (y - 1) / 400 - (y - 1) / 100

/-- CPython `date.toordinal`: 0001-01-01 has ordinal 1. -/
def Date.ordinal (d : Date) : ℕ :=
  daysBeforeYear d.year + daysBeforeMonth d.year d.month + d.day

/-- CPython `date.weekday`: `(ordinal + 6) % 7`, so 0 = Monday .. 6 = Sunday. -/
def Date.weekday (d : Date) : ℕ :=
  (d.ordinal + 6) % 7

/-- The `quarter` feature: `(dt.month - 1) // 3 + 1`. -/
def Date.quarter (d : Date) : ℕ :=
  (d.month - 1) / 3 + 1

/-- The `is_weekend` feature: `1 if weekday >= 5 else 0`. -/
def Date.isWeekendFlag (d : Date) : ℕ :=
  if 5 ≤ d.weekday then 1 else 0

/-- The `is_peak_season` feature: `1 if int(mnth) in (6, 7, 8) else 0`. -/
def Date.isPeakSeason (d : Date) : ℕ :=
  if d.month = 6 ∨ d.month = 7 ∨ d.month = 8 then 1 else 0

/-- A date is valid when its fields denote a real Gregorian calendar day. -/
def Date.valid (d : Date) : Prop :=
  1 ≤ d.year ∧ 1 ≤ d.month ∧ d.month ≤ 12 ∧ 1 ≤ d.day ∧ d.day ≤ daysInMonth d.year d.month

instance (d : Date) : Decidable d.valid := by
  unfold Date.valid; infer_instance

/-- The calendar successor of a date. -/
def nextDate (d : Date) : Date :=
  if d.day < daysInMonth d.year d.month then ⟨d.year, d.month, d.day + 1⟩
  else if d.month < 12 then ⟨d.year, d.month + 1, 1⟩
  else ⟨d.year + 1, 1, 1⟩

/-- `pd.to_datetime` restricted to ISO `YYYY-MM-DD` strings (the format the
UI sends); any other value is a parse failure. -/
def parseDate : Option JVal → Option Date
  | some (.str s) =>
    match splitOnCharFn '-' (trimChars s.toList) with
    | [ys, ms, ds] =>
      if ys ≠ [] ∧ ys.all Char.isDigit ∧ ms ≠ [] ∧ ms.all Char.isDigit ∧
          ds ≠ [] ∧ ds.all Char.isDigit then
        let d : Date := ⟨natOfDigits ys, natOfDigits ms, natOfDigits ds⟩
        if d.valid then some d else none
      else none
    | _ => none
  | _ => none

/-! ### Date arithmetic lemmas -/

theorem daysBeforeMonth_succ (y m : ℕ) (h1 : 1 ≤ m) (h2 : m ≤ 11) :
    daysBeforeMonth y (m + 1) = daysBeforeMonth y m + daysInMonth y m := by
  interval_cases m <;> cases h : isLeap y <;>
    simp [daysBeforeMonth, daysInMonth, h]

set_option maxHeartbeats 2000000 in
theorem daysBeforeYear_succ (y : ℕ) (h : 1 ≤ y) :
    daysBeforeYear (y + 1) = daysBeforeYear y + (if isLeap y then 366 else 365) := by
  obtain ⟨n, rfl⟩ : ∃ n, y = n + 1 := ⟨y - 1, by omega⟩
  have hsimp : ∀ z : ℕ, isLeap z = true ↔ (z % 4 = 0 ∧ ¬ z % 100 = 0) ∨ z % 400 = 0 := by
    intro z
    simp [isLeap, Bool.or_eq_true, Bool.and_eq_true, beq_iff_eq, bne_iff_ne]
  unfold daysBeforeYear
  by_cases hl : isLeap (n + 1)
  · rw [if_pos hl]
    rw [hsimp] at hl
    simp only [Nat.add_sub_cancel]
    omega
  · rw [if_neg hl]
    have hnl : ¬ (((n + 1) % 4 = 0 ∧ ¬ (n + 1) % 100 = 0) ∨ (n + 1) % 400 = 0) :=
      fun hc => hl ((hsimp (n + 1)).mpr hc)
    simp only [Nat.add_sub_cancel]
    omega

theorem ordinal_nextDate (d : Date) (h : d.valid) :
    (nextDate d).ordinal = d.ordinal + 1 := by
  obtain ⟨hy, hm1, hm2, hd1, hd2⟩ := h
  unfold nextDate
  by_cases hday : d.day < daysInMonth d.year d.month
  · simp [hday, Date.ordinal]
    omega
  · have hde : d.day = daysInMonth d.year d.month := by omega
    by_cases hmo : d.month < 12
    · have hm11 : d.month ≤ 11 := by omega
      simp only [hday, if_false, hmo, if_true, Date.ordinal]
      rw [daysBeforeMonth_succ d.year d.month hm1 hm11]
      omega
    · have hm12 : d.month = 12 := by omega
      simp only [hday, if_false, hmo, Date.ordinal]
      rw [daysBeforeYear_succ d.year hy, hde, hm12]
      cases hl : isLeap d.year <;>
        simp [daysBeforeMonth, daysInMonth, hl]

theorem weekday_nextDate (d : Date) (h : d.valid) :
    (nextDate d).weekday = (d.weekday + 1) % 7 := by
  unfold Date.weekday
  rw [ordinal_nextDate d h]
  omega

theorem weekday_lt_seven (d : Date) : d.weekday < 7 := by
  unfold Date.weekday
  omega

/-! ### Input contracts (`DAY_UI_FIELDS`, `HOUR_UI_FIELDS`) -/

/-- The 8 fields the daily endpoint accepts, in source order. -/
def DAY_UI_FIELDS : List String :=
  ["dteday", "season", "holiday", "workingday", "weathersit", "temp", "atemp", "hum"]

/-- The 9 fields the hourly endpoint accepts, in source order. -/
def HOUR_UI_FIELDS : List String :=
  ["dteday", "hr", "season", "holiday", "workingday", "weathersit", "temp", "atemp", "hum"]

/-- `payload.get(k)` on a JSON object. -/
def pget (p : Payload) (k : String) : Option JVal :=
  getKV p k

/-- A field value counts as missing when the key is absent, the value is
null, or the value is a string that trims to empty. -/
def isMissingO : Option JVal → Bool
  | none => true
  | some .null => true
  | some (.str s) => trimChars s.toList = []
  | some (.num _) => false

/-- The endpoint's missing-field list, in contract-field order (the source's
`[k for k, v in inputs.items() if v is None or ...]`). -/
def missingFields (fields : List String) (p : Payload) : List String :=
  fields.filter (fun k => isMissingO (pget p k))

/-- The `inputs` dict restricted to the contract fields, as a one-row frame
of raw cells (`pd.DataFrame([inputs])`); absent keys hold null (None). -/
def inputTable (fields : List String) (p : Payload) : RTable :=
  fields.map (fun k => (k, Cell.raw ((pget p k).getD .null)))

/-! ### Feature derivation (shared column blocks) -/

/-- The five date-derived columns `yr, mnth, weekday, quarter, is_weekend`. -/
def setDateCols (df : RTable) (dt : Date) : RTable :=
  let df := setKV df "yr" (.num (.rat dt.year))
  let df := setKV df "mnth" (.num (.rat dt.month))
  let df := setKV df "weekday" (.num (.rat dt.weekday))
  let df := setKV df "quarter" (.num (.rat dt.quarter))
  setKV df "is_weekend" (.num (.rat dt.isWeekendFlag))

/-- Month and weekday cyclical encodings (periods 12 and 7). -/
def setMonthWeekdayCyc (df : RTable) (dt : Date) : RTable :=
  let df := setKV df "mnth_sin" (.num (.sin2p ((dt.month : ℚ) / 12)))
  let df := setKV df "mnth_cos" (.num (.cos2p ((dt.month : ℚ) / 12)))
  let df := setKV df "weekday_sin" (.num (.sin2p ((dt.weekday : ℚ) / 7)))
  setKV df "weekday_cos" (.num (.cos2p ((dt.weekday : ℚ) / 7)))

/-- `pd.to_numeric(a) * pd.to_numeric(b)` with NaN propagation. -/
def prodCell (a b : Option ℚ) : Cell :=
  match a, b with
  | some x, some y => .num (.rat (x * y))
  | _, _ => .nan

/-- `pd.to_numeric(a) * 0` with NaN propagation (the hourly
`temp_windspeed`). -/
def mulZeroCell (a : Option ℚ) : Cell :=
  match a with
  | some x => .num (.rat (x * 0))
  | none => .nan

/-- The day endpoint's `numeric_cols` list (source lines 740-743). -/
def DAY_NUMERIC_COLS : List String :=
  ["season", "holiday", "workingday", "weathersit", "temp", "atemp", "hum",
   "yr", "mnth", "weekday", "quarter", "is_weekend",
   "mnth_sin", "mnth_cos", "weekday_sin", "weekday_cos",
   "is_peak_season", "temp_humidity", "temp_windspeed", "weather_severity"]

/-- The hour endpoint's `numeric_cols` list (source lines 891-894). -/
def HOUR_NUMERIC_COLS : List String :=
  ["season", "holiday", "workingday", "weathersit", "temp", "atemp", "hum",
   "windspeed", "hr",
   "yr", "mnth", "weekday", "quarter", "is_weekend",
   "mnth_sin", "mnth_cos", "weekday_sin", "weekday_cos", "hr_sin", "hr_cos",
   "is_peak_season", "temp_humidity", "temp_windspeed", "weather_severity"]

/-- The fully derived, coerced one-row frame of `/predict/day` just before
reindexing (source lines 706-746). -/
def dayTable (p : Payload) (dt : Date) : RTable :=
  let df := inputTable DAY_UI_FIELDS p
  let df := setDateCols df dt
  let df := setMonthWeekdayCyc df dt
  let df := setKV df "is_peak_season" (.num (.rat dt.isPeakSeason))
  let df := setKV df "temp_humidity"
    (prodCell (toNumOpt ((pget p "temp").getD .null)) (toNumOpt ((pget p "hum").getD .null)))
  let df := setKV df "temp_windspeed" (.num (.rat 0))
  let df := setKV df "weather_severity" ((getKV df "weathersit").getD zeroCell)
  let df := dropKV df "dteday"
  coercePass DAY_NUMERIC_COLS df

/-- The fully derived, coerced one-row frame of `/predict/hour` just before
reindexing (source lines 850-897). -/
def hourTable (p : Payload) (dt : Date) : RTable :=
  let df := inputTable HOUR_UI_FIELDS p
  let df := setDateCols df dt
  let df := setMonthWeekdayCyc df dt
  let hrI : ℤ := ratTrunc ((toNumOpt ((pget p "hr").getD .null)).getD 0)
  let df := setKV df "hr_sin" (.num (.sin2p ((hrI : ℚ) / 24)))
  let df := setKV df "hr_cos" (.num (.cos2p ((hrI : ℚ) / 24)))
  let df := setKV df "is_peak_season" (.num (.rat dt.isPeakSeason))
  let df := setKV df "temp_humidity"
    (prodCell (toNumOpt ((pget p "temp").getD .null)) (toNumOpt ((pget p "hum").getD .null)))
  let df := setKV df "windspeed" (.num (.rat 0))
  let df := setKV df "temp_windspeed" (mulZeroCell (toNumOpt ((pget p "temp").getD .null)))
  let df := setKV df "weather_severity" ((getKV df "weathersit").getD zeroCell)
  let df := dropKV df "dteday"
  coercePass HOUR_NUMERIC_COLS df

/-! ### Interactive endpoints -/

/-- Failure outcomes of the interactive prediction endpoints. -/
inductive PErr where
  | noBody
  | missingInputs (fields : List String)
  | hrConv
  | badDate
  | alignment
deriving DecidableEq, Repr

/-- `/predict/day` up to the assembled feature vector (the external model
call itself is out of scope).  `schema` is `day_expected_features`. -/
def predict_day (schema : List String) (p : Payload) : Except PErr (List Cell) :=
  if p = [] then .error .noBody
  else if missingFields DAY_UI_FIELDS p ≠ [] then
    .error (.missingInputs (missingFields DAY_UI_FIELDS p))
  else
    match parseDate (pget p "dteday") with
    | none => .error .badDate
    | some dt =>
      if (reindex schema (dayTable p dt)).length = schema.length then
        .ok (reindex schema (dayTable p dt))
      else .error .alignment

/-- `/predict/hour` up to the assembled feature vector.  Mirrors the source
order: validation, then `hr_val = int(inputs.get('hr', 0))` (whose failure
aborts the request), then date parsing and derivation.  `schema` is
`hour_expected_features`. -/
def predict_hour (schema : List String) (p : Payload) : Except PErr (List Cell) :=
  if p = [] then .error .noBody
  else if missingFields HOUR_UI_FIELDS p ≠ [] then
    .error (.missingInputs (missingFields HOUR_UI_FIELDS p))
  else
    match pyInt ((pget p "hr").getD (.num 0)) with
    | none => .error .hrConv
    | some _ =>
      match parseDate (pget p "dteday") with
      | none => .error .badDate
      | some dt =>
        if (reindex schema (hourTable p dt)).length = schema.length then
          .ok (reindex schema (hourTable p dt))
        else .error .alignment

/-! ### Batch text-file path (`/upload-predict`) -/

/-- A parsed numeric value: Python int, or a non-integral float. -/
inductive PyNum where
  | int (n : ℤ)
  | float (q : ℚ)
deriving DecidableEq, Repr

/-- Rational value of a parsed number. -/
def pyNumToRat : PyNum → ℚ
  | .int n => n
  | .float q => q

/-- Failure outcomes of the upload endpoint. -/
inductive UpErr where
  | noFile
  | badExt
  | badMode
  | format
  | empty
  | hourModeNoHr
  | missingKeys (mode : String) (keys : List String)
  | alignment
deriving DecidableEq, Repr

/-- The fixed key synonym table (`key_mapping`); identity entries of the
source (`season`, `holiday`, `workingday`, `windspeed`, `atemp`) coincide
with the default pass-through. -/
def keyMap (k : String) : String :=
  if k = "hour" then "hr"
  else if k = "humidity" then "hum"
  else if k = "weather" then "weathersit"
  else if k = "working_day" then "workingday"
  else if k = "temperature" then "temp"
  else k

/-- Parse one `key:value` line into the accumulated mapping.  A blank line
is skipped; a line without a colon, or with a non-numeric value, fails the
whole parse with a format error; integral floats normalise to ints. -/
def parseLine (acc : List (String × PyNum)) (line : List Char) :
    Except UpErr (List (String × PyNum)) :=
  if trimChars line = [] then .ok acc
  else
    match splitOnCharFn ':' (trimChars line) with
    | [] => .error .format
    | [_] => .error .format
    | k :: rest =>
      match floatOfString (String.mk (trimChars (joinWithChar ':' rest))) with
      | none => .error .format
      | some q =>
        .ok (setKV acc (keyMap (String.mk (lowerChars (trimChars k))))
          (if q.den = 1 then PyNum.int q.num else PyNum.float q))

/-- Fold `parseLine` over the payload's lines. -/
def parseLines : List (List Char) → List (String × PyNum) →
    Except UpErr (List (String × PyNum))
  | [], acc => .ok acc
  | l :: ls, acc =>
    match parseLine acc l with
    | .error e => .error e
    | .ok acc2 => parseLines ls acc2

/-- Parse a whole text payload: `content.strip().split(chr(10))`, then line
by line. -/
def parseTxt (content : String) : Except UpErr (List (String × PyNum)) :=
  parseLines (splitOnCharFn '\n' (trimChars content.toList)) []

/-- Prediction mode. -/
inductive Mode where
  | hour
  | day
deriving DecidableEq, Repr

/-- Mode resolution (source lines 1162-1171): `auto` infers from the
presence of `hr`; explicit `hour` without `hr` is a hard error; explicit
`day` silently drops an `hr` key. -/
def resolveMode (modeParam : String) (parsed : List (String × PyNum)) :
    Except UpErr (Mode × List (String × PyNum)) :=
  if modeParam = "auto" then
    if hasKV parsed "hr" then .ok (.hour, parsed) else .ok (.day, parsed)
  else if modeParam = "hour" then
    if hasKV parsed "hr" then .ok (.hour, parsed) else .error .hourModeNoHr
  else
    .ok (.day, dropKV parsed "hr")

/-- Required keys per mode (`['temp', 'hum', 'weathersit']` plus `hr`). -/
def requiredKeys : Mode → List String
  | .hour => ["temp", "hum", "weathersit", "hr"]
  | .day => ["temp", "hum", "weathersit"]

/-- Mode name as used in the missing-keys error message. -/
def modeName : Mode → String
  | .hour => "hour"
  | .day => "day"

/-- The fallback date the upload path substitutes (June 15, 2024). -/
def uploadFallbackDate : Date := ⟨2024, 6, 15⟩

/-- The derived, coerced one-row frame of the upload path just before
reindexing (source lines 1196-1236).  `expected` is the selected schema;
the coercion pass covers exactly the columns present in both the frame and
the schema.  Lookups of a column absent from the frame are modelled as NaN,
whereas pandas `df[col]` would raise a KeyError; `fileUpload` only reaches
this table after its required-keys check, under which every column this
table looks up (`temp`, `hum`, `weathersit`, and `hr` in hour mode) is
present, so the two agree on all reachable runs — no theorem below reads
the collapsed value of a missing column. -/
def fileTable (parsed : List (String × PyNum)) (mode : Mode)
    (expected : List String) : RTable :=
  let df : RTable := parsed.map (fun kv => (kv.1, Cell.num (.rat (pyNumToRat kv.2))))
  let dt := uploadFallbackDate
  let df := setDateCols df dt
  let df := setMonthWeekdayCyc df dt
  let df := setKV df "is_peak_season" (.num (.rat dt.isPeakSeason))
  let df := setKV df "temp_humidity"
    (prodCell ((getKV df "temp").bind cellNumOpt) ((getKV df "hum").bind cellNumOpt))
  let df := setKV df "weather_severity" ((getKV df "weathersit").getD zeroCell)
  let df :=
    match mode with
    | .hour =>
      let hrq : ℚ := ((getKV df "hr").bind cellNumOpt).getD 12
      let df := setKV df "hr_sin" (.num (.sin2p (hrq / 24)))
      let df := setKV df "hr_cos" (.num (.cos2p (hrq / 24)))
      let df := setKV df "windspeed" (.num (.rat 0))
      setKV df "temp_windspeed" (mulZeroCell ((getKV df "temp").bind cellNumOpt))
    | .day =>
      let df := dropKV df "hr"
      setKV df "temp_windspeed" (.num (.rat 0))
  coercePass expected df

/-- Schema selection by resolved mode (`expected_features`). -/
def selSchema (m : Mode) (daySchema hourSchema : List String) : List String :=
  match m with
  | .hour => hourSchema
  | .day => daySchema

/-- `.txt` extension test on the lowercased filename. -/
def endsWithTxt (s : String) : Bool :=
  match (lowerChars s.toList).reverse with
  | 't' :: 'x' :: 't' :: '.' :: _ => true
  | _ => false

/-- `/upload-predict` up to the assembled feature vector: extension and
mode checks, text parse, mode resolution, required-key check, derivation
against the fixed fallback date, reindex to the selected schema. -/
def fileUpload (daySchema hourSchema : List String)
    (filename modeParam : String) (content : String) :
    Except UpErr (Mode × List (String × PyNum) × List Cell) :=
  if filename = "" then .error .noFile
  else if ¬ endsWithTxt filename then .error .badExt
  else if ¬ (modeParam = "auto" ∨ modeParam = "hour" ∨ modeParam = "day") then
    .error .badMode
  else
    match parseTxt content with
    | .error e => .error e
    | .ok parsed =>
      if parsed = [] then .error .empty
      else
        match resolveMode modeParam parsed with
        | .error e => .error e
        | .ok (mode, parsed2) =>
          if (requiredKeys mode).filter (fun k => ¬ hasKV parsed2 k) ≠ [] then
            .error (.missingKeys (modeName mode)
              ((requiredKeys mode).filter (fun k => ¬ hasKV parsed2 k)))
          else
            if (reindex (selSchema mode daySchema hourSchema)
                  (fileTable parsed2 mode (selSchema mode daySchema hourSchema))).length =
                (selSchema mode daySchema hourSchema).length then
              .ok (mode, parsed2,
                reindex (selSchema mode daySchema hourSchema)
                  (fileTable parsed2 mode (selSchema mode daySchema hourSchema)))
            else .error .alignment

/-! ### Prediction history and labels -/

/-- One append to the in-memory history: the new record's id is the current
length plus one; after appending, the oldest record is evicted when the
length exceeds 100 (source lines 766-796 / 917-948, identical in both
endpoints; only the ids are modelled). -/
def histStep (h : List ℕ) : List ℕ :=
  let h2 := h ++ [h.length + 1]
  if 100 < h2.length then h2.drop 1 else h2

/-- The history after `n` appends starting from the empty history. -/
def histAfter (n : ℕ) : List ℕ :=
  histStep^[n] []

set_option linter.unusedVariables false in
/-- `_calculate_peak_status` (source lines 1306-1319): the `hour` argument
is accepted but never used; only `demand` decides the label. -/
def calculatePeakStatus (hour : Option ℤ) (demand : Option ℤ) : String :=
  match demand with
  | none => "Normal"
  | some d =>
    if 400 < d then "Peak"
    else if 200 < d then "Normal"
    else "Off-Peak"

/-! ### Success-shape lemmas for the endpoints -/

theorem predict_day_ok (schema : List String) (p : Payload) (row : List Cell)
    (h : predict_day schema p = .ok row) :
    ∃ dt, parseDate (pget p "dteday") = some dt ∧
      row = reindex schema (dayTable p dt) := by
  unfold predict_day at h
  split at h
  · exact absurd h (by simp)
  · split at h
    · exact absurd h (by simp)
    · split at h
      · exact absurd h (by simp)
      · rename_i dt hd
        rw [if_pos (length_reindex schema (dayTable p dt))] at h
        injection h with h
        exact ⟨dt, hd, h.symm⟩

theorem predict_hour_ok (schema : List String) (p : Payload) (row : List Cell)
    (h : predict_hour schema p = .ok row) :
    ∃ dt, parseDate (pget p "dteday") = some dt ∧
      row = reindex schema (hourTable p dt) := by
  unfold predict_hour at h
  split at h
  · exact absurd h (by simp)
  · split at h
    · exact absurd h (by simp)
    · split at h
      · exact absurd h (by simp)
      · split at h
        · exact absurd h (by simp)
        · rename_i dt hd
          rw [if_pos (length_reindex schema (hourTable p dt))] at h
          injection h with h
          exact ⟨dt, hd, h.symm⟩

theorem fileUpload_ok (ds hs : List String) (fn mp content : String)
    (m : Mode) (parsed : List (String × PyNum)) (row : List Cell)
    (h : fileUpload ds hs fn mp content = .ok (m, parsed, row)) :
    row = reindex (selSchema m ds hs) (fileTable parsed m (selSchema m ds hs)) := by
  unfold fileUpload at h
  split at h
  · exact absurd h (by simp)
  · split at h
    · exact absurd h (by simp)
    · split at h
      · exact absurd h (by simp)
      · split at h
        · exact absurd h (by simp)
        · split at h
          · exact absurd h (by simp)
          · split at h
            · exact absurd h (by simp)
            · rename_i mode parsed2 hrm
              split at h
              · exact absurd h (by simp)
              · rw [if_pos (length_reindex _ _)] at h
                injection h with h2
                injection h2 with hm hrest
                injection hrest with hparsed hrow
                subst hm
                subst hparsed
                exact hrow.symm

/-- A successful upload run has passed the required-keys check: every key
required for the resolved mode is present in the parsed mapping. -/
theorem fileUpload_ok_required (ds hs : List String) (fn mp content : String)
    (m : Mode) (parsed : List (String × PyNum)) (row : List Cell)
    (h : fileUpload ds hs fn mp content = .ok (m, parsed, row)) :
    ∀ k ∈ requiredKeys m, hasKV parsed k = true := by
  unfold fileUpload at h
  split at h
  · exact absurd h (by simp)
  · split at h
    · exact absurd h (by simp)
    · split at h
      · exact absurd h (by simp)
      · split at h
        · exact absurd h (by simp)
        · split at h
          · exact absurd h (by simp)
          · split at h
            · exact absurd h (by simp)
            · rename_i mode parsed2 hrm
              split at h
              · exact absurd h (by simp)
              · rename_i hfilter
                rw [if_pos (length_reindex _ _)] at h
                injection h with h2
                injection h2 with hm hrest
                injection hrest with hparsed hrow
                subst hm
                subst hparsed
                rw [not_ne_iff, List.filter_eq_nil_iff] at hfilter
                intro k hk
                have := hfilter k hk
                simpa using this

/-! ### Column-value lemmas for the derived tables -/

theorem coerceCell_mulZeroCell (x : Option ℚ) :
    coerceCell (mulZeroCell x) = zeroCell := by
  cases x <;> simp [mulZeroCell, coerceCell, zeroCell]

theorem coerceCell_num (x : NumV) : coerceCell (.num x) = .num x := rfl

theorem dayTable_temp_windspeed (p : Payload) (dt : Date) :
    getKV (dayTable p dt) "temp_windspeed" = some zeroCell := by
  unfold dayTable
  simp [getKV_coercePass, getKV_dropKV_ne, getKV_setKV_ne, getKV_setKV_self,
        DAY_NUMERIC_COLS, coerceCell, zeroCell]

theorem hourTable_temp_windspeed (p : Payload) (dt : Date) :
    getKV (hourTable p dt) "temp_windspeed" = some zeroCell := by
  unfold hourTable
  cases h : toNumOpt ((pget p "temp").getD .null) <;>
    simp [getKV_coercePass, getKV_dropKV_ne, getKV_setKV_ne, getKV_setKV_self,
          HOUR_NUMERIC_COLS, coerceCell, zeroCell, mulZeroCell, h]

theorem fileTable_temp_windspeed (parsed : List (String × PyNum)) (m : Mode)
    (expected : List String) (hmem : "temp_windspeed" ∈ expected) :
    getKV (fileTable parsed m expected) "temp_windspeed" = some zeroCell := by
  unfold fileTable
  cases m <;>
    simp [getKV_coercePass, getKV_setKV_self, hmem, coerceCell_mulZeroCell,
          coerceCell_num, zeroCell]

theorem dayTable_quarter (p : Payload) (dt : Date) :
    getKV (dayTable p dt) "quarter" = some (.num (.rat dt.quarter)) := by
  unfold dayTable setMonthWeekdayCyc setDateCols
  simp [getKV_coercePass, getKV_dropKV_ne, getKV_setKV_ne, getKV_setKV_self,
        DAY_NUMERIC_COLS, coerceCell]

theorem dayTable_is_weekend (p : Payload) (dt : Date) :
    getKV (dayTable p dt) "is_weekend" = some (.num (.rat dt.isWeekendFlag)) := by
  unfold dayTable setMonthWeekdayCyc setDateCols
  simp [getKV_coercePass, getKV_dropKV_ne, getKV_setKV_ne, getKV_setKV_self,
        DAY_NUMERIC_COLS, coerceCell]

theorem hourTable_quarter (p : Payload) (dt : Date) :
    getKV (hourTable p dt) "quarter" = some (.num (.rat dt.quarter)) := by
  unfold hourTable setMonthWeekdayCyc setDateCols
  simp [getKV_coercePass, getKV_dropKV_ne, getKV_setKV_ne, getKV_setKV_self,
        HOUR_NUMERIC_COLS, coerceCell]

theorem hourTable_is_weekend (p : Payload) (dt : Date) :
    getKV (hourTable p dt) "is_weekend" = some (.num (.rat dt.isWeekendFlag)) := by
  unfold hourTable setMonthWeekdayCyc setDateCols
  simp [getKV_coercePass, getKV_dropKV_ne, getKV_setKV_ne, getKV_setKV_self,
        HOUR_NUMERIC_COLS, coerceCell]

theorem fileTable_quarter (parsed : List (String × PyNum)) (m : Mode)
    (expected : List String) :
    getKV (fileTable parsed m expected) "quarter" =
      some (.num (.rat uploadFallbackDate.quarter)) := by
  unfold fileTable setMonthWeekdayCyc setDateCols
  cases m <;>
    simp [getKV_coercePass, getKV_dropKV_ne, getKV_setKV_ne, getKV_setKV_self,
          coerceCell]

theorem fileTable_is_weekend (parsed : List (String × PyNum)) (m : Mode)
    (expected : List String) :
    getKV (fileTable parsed m expected) "is_weekend" =
      some (.num (.rat uploadFallbackDate.isWeekendFlag)) := by
  unfold fileTable setMonthWeekdayCyc setDateCols
  cases m <;>
    simp [getKV_coercePass, getKV_dropKV_ne, getKV_setKV_ne, getKV_setKV_self,
          coerceCell]

/-! ### Example inputs used by witnesses -/

/-- A valid daily payload (the spec's end-to-end example 1). -/
def examplePayloadDay : Payload :=
  [("dteday", .str "2024-07-04"), ("season", .num 2), ("holiday", .num 0),
   ("workingday", .num 0), ("weathersit", .num 1), ("temp", .num 28),
   ("atemp", .num 30), ("hum", .num 55)]

/-- A valid hourly payload. -/
def examplePayloadHour : Payload :=
  [("dteday", .str "2024-07-04"), ("hr", .num 9), ("season", .num 2),
   ("holiday", .num 0), ("workingday", .num 0), ("weathersit", .num 1),
   ("temp", .num 28), ("atemp", .num 30), ("hum", .num 55)]

/-! ### Claims -/

/-- Claim C1: for every valid request on the daily, hourly, and batch entry
points, every position of the assembled feature vector whose schema name is
`temp_windspeed` holds the structural zero cell.  The daily paths fix the
column to the constant 0; the hourly paths compute `to_numeric(temp) * 0`,
which is 0 after the numeric-coercion pass even when the temperature fails
numeric coercion. -/
theorem c1_temp_windspeed_structurally_zero :
    (∀ (schema : List String) (p : Payload) (row : List Cell) (i : ℕ),
      predict_day schema p = .ok row →
      schema[i]? = some "temp_windspeed" → row[i]? = some zeroCell) ∧
    (∀ (schema : List String) (p : Payload) (row : List Cell) (i : ℕ),
      predict_hour schema p = .ok row →
      schema[i]? = some "temp_windspeed" → row[i]? = some zeroCell) ∧
    (∀ (ds hs : List String) (fn mp content : String) (m : Mode)
        (parsed : List (String × PyNum)) (row : List Cell) (i : ℕ),
      fileUpload ds hs fn mp content = .ok (m, parsed, row) →
      (selSchema m ds hs)[i]? = some "temp_windspeed" →
      row[i]? = some zeroCell) := by
  refine ⟨?_, ?_, ?_⟩
  · intro schema p row i hok hi
    obtain ⟨dt, _, hrow⟩ := predict_day_ok schema p row hok
    subst hrow
    rw [getElem?_reindex, hi]
    simp [dayTable_temp_windspeed]
  · intro schema p row i hok hi
    obtain ⟨dt, _, hrow⟩ := predict_hour_ok schema p row hok
    subst hrow
    rw [getElem?_reindex, hi]
    simp [hourTable_temp_windspeed]
  · intro ds hs fn mp content m parsed row i hok hi
    have hrow := fileUpload_ok ds hs fn mp content m parsed row hok
    subst hrow
    rw [getElem?_reindex, hi]
    have hmem : "temp_windspeed" ∈ selSchema m ds hs := List.getElem?_mem hi
    simp [fileTable_temp_windspeed _ _ _ hmem]

/-- Witness for C1: concrete runs of all three entry points against the
one-column schema `[temp_windspeed]`, with the conclusion instantiated. -/
theorem c1_temp_windspeed_structurally_zero_witness :
    (predict_day ["temp_windspeed"] examplePayloadDay = .ok [zeroCell] ∧
      ([zeroCell] : List Cell)[0]? = some zeroCell) ∧
    (predict_hour ["temp_windspeed"] examplePayloadHour = .ok [zeroCell] ∧
      ([zeroCell] : List Cell)[0]? = some zeroCell) ∧
    (fileUpload ["temp_windspeed"] ["temp_windspeed"] "data.txt" "auto"
        "temperature:25\nhum:60\nweather:1" =
      .ok (.day, [("temp", .int 25), ("hum", .int 60), ("weathersit", .int 1)],
        [zeroCell]) ∧
      ([zeroCell] : List Cell)[0]? = some zeroCell) :=
  ⟨⟨by with_unfolding_all rfl,
    c1_temp_windspeed_structurally_zero.1 ["temp_windspeed"] examplePayloadDay
      [zeroCell] 0 (by with_unfolding_all rfl) (by rfl)⟩,
   ⟨by with_unfolding_all rfl,
    c1_temp_windspeed_structurally_zero.2.1 ["temp_windspeed"] examplePayloadHour
      [zeroCell] 0 (by with_unfolding_all rfl) (by rfl)⟩,
   ⟨by with_unfolding_all rfl,
    c1_temp_windspeed_structurally_zero.2.2 ["temp_windspeed"] ["temp_windspeed"]
      "data.txt" "auto" "temperature:25\nhum:60\nweather:1" .day
      [("temp", .int 25), ("hum", .int 60), ("weathersit", .int 1)]
      [zeroCell] 0 (by with_unfolding_all rfl) (by rfl)⟩⟩

/-- Claim C2: for every valid daily input, the reindexed vector has exactly
as many entries as the daily schema; each schema position holds the
computed (post-coercion) value of that column, with 0 filled for schema
columns the pipeline did not produce; and the feature-alignment error
branch is unreachable. -/
theorem c2_day_schema_alignment :
    (∀ (schema : List String) (p : Payload),
      predict_day schema p ≠ .error .alignment) ∧
    (∀ (schema : List String) (p : Payload) (row : List Cell),
      predict_day schema p = .ok row →
      row.length = schema.length ∧
      ∃ dt, parseDate (pget p "dteday") = some dt ∧
        ∀ (i : ℕ) (c : String), schema[i]? = some c →
          row[i]? = some ((getKV (dayTable p dt) c).getD zeroCell)) := by
  constructor
  · intro schema p hcontra
    unfold predict_day at hcontra
    split at hcontra
    · simp at hcontra
    · split at hcontra
      · simp at hcontra
      · split at hcontra
        · simp at hcontra
        · rename_i dt hd
          rw [if_pos (length_reindex schema (dayTable p dt))] at hcontra
          simp at hcontra
  · intro schema p row hok
    obtain ⟨dt, hd, hrow⟩ := predict_day_ok schema p row hok
    subst hrow
    refine ⟨length_reindex _ _, dt, hd, ?_⟩
    intro i c hi
    rw [getElem?_reindex, hi]
    rfl

/-- Witness for C2: a concrete daily run against a two-column schema whose
second column the pipeline never produces (filled with 0). -/
theorem c2_day_schema_alignment_witness :
    predict_day ["yr", "unproduced_column"] examplePayloadDay =
      .ok [Cell.num (.rat 2024), zeroCell] ∧
    ([Cell.num (.rat 2024), zeroCell].length = (["yr", "unproduced_column"] : List String).length ∧
      ∃ dt, parseDate (pget examplePayloadDay "dteday") = some dt ∧
        ∀ (i : ℕ) (c : String), (["yr", "unproduced_column"] : List String)[i]? = some c →
          [Cell.num (.rat 2024), zeroCell][i]? =
            some ((getKV (dayTable examplePayloadDay dt) c).getD zeroCell)) :=
  ⟨by with_unfolding_all rfl,
   c2_day_schema_alignment.2 ["yr", "unproduced_column"] examplePayloadDay
     [Cell.num (.rat 2024), zeroCell] (by with_unfolding_all rfl)⟩

/-- Characterisation of the missing-field test. -/
theorem isMissingO_iff (o : Option JVal) :
    isMissingO o = true ↔
      (o = none ∨ o = some .null ∨
        ∃ s, o = some (.str s) ∧ trimChars s.toList = []) := by
  cases o with
  | none => simp [isMissingO]
  | some v => cases v <;> simp [isMissingO]

/-- The daily example payload with the humidity field left out. -/
def examplePayloadDayNoHum : Payload :=
  [("dteday", .str "2024-07-04"), ("season", .num 2), ("holiday", .num 0),
   ("workingday", .num 0), ("weathersit", .num 1), ("temp", .num 28),
   ("atemp", .num 30)]

/-- Claim C3: on both interactive endpoints a required field counts as
missing exactly when it is absent, null, or a string that trims to empty;
any missing field fails the request with an error listing every missing
field name in contract order; and a daily input missing only `hum` yields
exactly `[hum]`. -/
theorem c3_missing_field_detection :
    (∀ (p : Payload) (k : String), k ∈ missingFields DAY_UI_FIELDS p ↔
      (k ∈ DAY_UI_FIELDS ∧ (pget p k = none ∨ pget p k = some .null ∨
        ∃ s, pget p k = some (.str s) ∧ trimChars s.toList = []))) ∧
    (∀ (p : Payload) (k : String), k ∈ missingFields HOUR_UI_FIELDS p ↔
      (k ∈ HOUR_UI_FIELDS ∧ (pget p k = none ∨ pget p k = some .null ∨
        ∃ s, pget p k = some (.str s) ∧ trimChars s.toList = []))) ∧
    (∀ (schema : List String) (p : Payload), p ≠ [] →
      missingFields DAY_UI_FIELDS p ≠ [] →
      predict_day schema p = .error (.missingInputs (missingFields DAY_UI_FIELDS p))) ∧
    (∀ (schema : List String) (p : Payload), p ≠ [] →
      missingFields HOUR_UI_FIELDS p ≠ [] →
      predict_hour schema p = .error (.missingInputs (missingFields HOUR_UI_FIELDS p))) ∧
    missingFields DAY_UI_FIELDS examplePayloadDayNoHum = ["hum"] := by
  refine ⟨?_, ?_, ?_, ?_, by decide⟩
  · intro p k
    rw [← isMissingO_iff]
    simp [missingFields, List.mem_filter]
  · intro p k
    rw [← isMissingO_iff]
    simp [missingFields, List.mem_filter]
  · intro schema p hp hm
    unfold predict_day
    rw [if_neg hp, if_pos hm]
  · intro schema p hp hm
    unfold predict_hour
    rw [if_neg hp, if_pos hm]

/-- Witness for C3: the missing-`hum` example discharged concretely on the
daily endpoint. -/
theorem c3_missing_field_detection_witness :
    examplePayloadDayNoHum ≠ [] ∧
    missingFields DAY_UI_FIELDS examplePayloadDayNoHum ≠ [] ∧
    predict_day ["yr"] examplePayloadDayNoHum =
      .error (.missingInputs (missingFields DAY_UI_FIELDS examplePayloadDayNoHum)) :=
  ⟨by decide, by decide,
   c3_missing_field_detection.2.2.1 ["yr"] examplePayloadDayNoHum
     (by decide) (by decide)⟩

/-- Claim C4: mode resolution for parsed text payloads.  `auto` resolves to
hourly exactly when an `hr` key is present (else daily); explicit `hour`
without an `hr` key is a hard error; explicit `day` with an `hr` key
silently drops the key and proceeds in day mode.  The concrete conjuncts
run the whole upload endpoint on the spec's example 3 and on an
hour-mode file without an hour. -/
theorem c4_mode_resolution :
    (∀ parsed : List (String × PyNum), hasKV parsed "hr" = true →
      resolveMode "auto" parsed = .ok (.hour, parsed)) ∧
    (∀ parsed : List (String × PyNum), hasKV parsed "hr" = false →
      resolveMode "auto" parsed = .ok (.day, parsed)) ∧
    (∀ parsed : List (String × PyNum), hasKV parsed "hr" = false →
      resolveMode "hour" parsed = .error .hourModeNoHr) ∧
    (∀ parsed : List (String × PyNum),
      resolveMode "day" parsed = .ok (.day, dropKV parsed "hr") ∧
      getKV (dropKV parsed "hr") "hr" = none) ∧
    fileUpload [] [] "f.txt" "auto" "hour:9\ntemp:20\nhum:50\nweather:2" =
      .ok (.hour, [("hr", .int 9), ("temp", .int 20), ("hum", .int 50),
        ("weathersit", .int 2)], []) ∧
    fileUpload [] [] "f.txt" "hour" "temp:20\nhum:50\nweather:2" =
      .error .hourModeNoHr ∧
    fileUpload [] [] "f.txt" "day" "hour:9\ntemp:20\nhum:50\nweather:2" =
      .ok (.day, [("temp", .int 20), ("hum", .int 50), ("weathersit", .int 2)], []) := by
  refine ⟨?_, ?_, ?_, ?_, by with_unfolding_all rfl, by with_unfolding_all rfl,
    by with_unfolding_all rfl⟩
  · intro parsed h
    simp [resolveMode, h]
  · intro parsed h
    simp [resolveMode, h]
  · intro parsed h
    simp [resolveMode, h]
  · intro parsed
    refine ⟨by simp [resolveMode], ?_⟩
    induction parsed with
    | nil => simp [dropKV, getKV]
    | cons hd tl ih =>
      by_cases hk : hd.1 = "hr" <;>
        simp_all [dropKV, List.filter_cons, getKV]

/-- Witness for C4: the universally quantified conjuncts discharged on a
concrete one-entry mapping. -/
theorem c4_mode_resolution_witness :
    hasKV ([("temp", PyNum.int 20)]) "hr" = false ∧
    resolveMode "auto" [("temp", PyNum.int 20)] = .ok (.day, [("temp", PyNum.int 20)]) ∧
    resolveMode "hour" [("temp", PyNum.int 20)] = .error .hourModeNoHr :=
  ⟨by decide,
   c4_mode_resolution.2.1 [("temp", PyNum.int 20)] (by decide),
   c4_mode_resolution.2.2.1 [("temp", PyNum.int 20)] (by decide)⟩

/-- Every parse failure of a single line is the format error. -/
theorem parseLine_error_format (acc : List (String × PyNum)) (l : List Char)
    (e : UpErr) (h : parseLine acc l = .error e) : e = .format := by
  unfold parseLine at h
  split at h
  · cases h
  · split at h
    · injection h with h
      exact h.symm
    · injection h with h
      exact h.symm
    · split at h
      · injection h with h
        exact h.symm
      · cases h


/-- A line with a colon and a non-numeric value fails the parse of that
line with the format error, independently of the accumulator. -/
theorem parseLine_format (acc : List (String × PyNum)) (line k : List Char)
    (rest : List (List Char))
    (hsplit : splitOnCharFn ':' (trimChars line) = k :: rest)
    (hrest : rest ≠ [])
    (hfl : floatOfString (String.mk (trimChars (joinWithChar ':' rest))) = none) :
    parseLine acc line = .error .format := by
  have hl : trimChars line ≠ [] := by
    intro h0
    rw [h0] at hsplit
    simp only [splitOnCharFn, List.foldr_nil] at hsplit
    injection hsplit with h1 h2
    exact hrest h2.symm
  cases rest with
  | nil => exact absurd rfl hrest
  | cons r rs =>
    unfold parseLine
    rw [if_neg hl, hsplit]
    simp only [hfl]

/-- If any line of the payload fails with the format error, the whole parse
does. -/
theorem parseLines_format (ls : List (List Char)) (acc : List (String × PyNum))
    (line : List Char) (hmem : line ∈ ls)
    (hfail : ∀ acc2, parseLine acc2 line = .error .format) :
    parseLines ls acc = .error .format := by
  induction ls generalizing acc with
  | nil => cases hmem
  | cons l0 ls ih =>
    unfold parseLines
    cases hmem with
    | head => rw [hfail acc]
    | tail _ hm =>
      cases hpl : parseLine acc l0 with
      | error e =>
        have he := parseLine_error_format acc l0 e hpl
        subst he
        rfl
      | ok acc2 => exact ih acc2 hm

/-- Claim C5: parsing `temperature:25 / hum:60 / weather:1` in auto mode
resolves to daily mode, satisfies the required keys, and yields exactly
`{temp: 25, hum: 60, weathersit: 1}` as integers (keys lowercased, mapped
through the synonym table, integral floats normalised to ints); and any
payload containing a line with a colon but a non-numeric value fails the
whole parse with the format error. -/
theorem c5_text_parse_day_example :
    parseTxt "temperature:25\nhum:60\nweather:1" =
      .ok [("temp", .int 25), ("hum", .int 60), ("weathersit", .int 1)] ∧
    resolveMode "auto" [("temp", .int 25), ("hum", .int 60), ("weathersit", .int 1)] =
      .ok (.day, [("temp", .int 25), ("hum", .int 60), ("weathersit", .int 1)]) ∧
    (requiredKeys .day).filter
      (fun k => ¬ hasKV [("temp", PyNum.int 25), ("hum", PyNum.int 60),
        ("weathersit", PyNum.int 1)] k) = [] ∧
    (∀ (content : String) (line k : List Char) (rest : List (List Char)),
      line ∈ splitOnCharFn '\n' (trimChars content.toList) →
      splitOnCharFn ':' (trimChars line) = k :: rest →
      rest ≠ [] →
      floatOfString (String.mk (trimChars (joinWithChar ':' rest))) = none →
      parseTxt content = .error .format) := by
  refine ⟨by with_unfolding_all rfl, by with_unfolding_all rfl, by decide, ?_⟩
  intro content line k rest hmem hsplit hrest hfl
  unfold parseTxt
  exact parseLines_format _ [] line hmem
    (fun acc2 => parseLine_format acc2 line k rest hsplit hrest hfl)

/-- Witness for C5: the non-numeric-value conjunct discharged on the
concrete payload `temp:abc / hum:60`. -/
theorem c5_text_parse_day_example_witness :
    ("temp:abc".toList ∈
      splitOnCharFn '\n' (trimChars ("temp:abc\nhum:60" : String).toList)) ∧
    splitOnCharFn ':' (trimChars "temp:abc".toList) =
      "temp".toList :: ["abc".toList] ∧
    (["abc".toList] : List (List Char)) ≠ [] ∧
    floatOfString (String.mk (trimChars (joinWithChar ':' ["abc".toList]))) = none ∧
    parseTxt "temp:abc\nhum:60" = .error .format :=
  ⟨by decide, by decide, by decide, by with_unfolding_all rfl,
   c5_text_parse_day_example.2.2.2 "temp:abc\nhum:60" "temp:abc".toList
     "temp".toList ["abc".toList] (by decide) (by decide) (by decide)
     (by with_unfolding_all rfl)⟩

/-- Claim C6: for every successfully parsed calendar date, the derived
features satisfy quarter = (month-1)/3 + 1 and is_weekend = 1 iff
weekday >= 5, with weekday in the 0=Monday..6=Sunday convention (anchored
on known dates and on the successor step), and the derived columns of all
three derivation tables carry exactly these values. -/
theorem c6_date_derived_features :
    (∀ d : Date, d.valid →
      (d.quarter = (d.month - 1) / 3 + 1 ∧
       d.isWeekendFlag = (if 5 ≤ d.weekday then 1 else 0) ∧
       ((d.weekday = 5 ∨ d.weekday = 6) → d.isWeekendFlag = 1) ∧
       (d.weekday ≤ 4 → d.isWeekendFlag = 0) ∧
       (nextDate d).weekday = (d.weekday + 1) % 7)) ∧
    Date.weekday ⟨2024, 7, 4⟩ = 3 ∧
    Date.weekday ⟨2024, 6, 16⟩ = 6 ∧
    Date.weekday ⟨2024, 6, 17⟩ = 0 ∧
    (∀ (p : Payload) (dt : Date),
      getKV (dayTable p dt) "quarter" = some (.num (.rat dt.quarter)) ∧
      getKV (dayTable p dt) "is_weekend" = some (.num (.rat dt.isWeekendFlag)) ∧
      getKV (hourTable p dt) "quarter" = some (.num (.rat dt.quarter)) ∧
      getKV (hourTable p dt) "is_weekend" = some (.num (.rat dt.isWeekendFlag))) ∧
    (∀ (parsed : List (String × PyNum)) (m : Mode) (expected : List String),
      getKV (fileTable parsed m expected) "quarter" =
        some (.num (.rat uploadFallbackDate.quarter)) ∧
      getKV (fileTable parsed m expected) "is_weekend" =
        some (.num (.rat uploadFallbackDate.isWeekendFlag))) := by
  refine ⟨?_, by decide, by decide, by decide, ?_, ?_⟩
  · intro d hd
    refine ⟨rfl, rfl, ?_, ?_, weekday_nextDate d hd⟩
    · intro h
      unfold Date.isWeekendFlag
      rcases h with h | h <;> rw [h] <;> norm_num
    · intro h
      unfold Date.isWeekendFlag
      rw [if_neg (by omega)]
  · intro p dt
    exact ⟨dayTable_quarter p dt, dayTable_is_weekend p dt,
      hourTable_quarter p dt, hourTable_is_weekend p dt⟩
  · intro parsed m expected
    exact ⟨fileTable_quarter parsed m expected, fileTable_is_weekend parsed m expected⟩

/-- Witness for C6: the date-level conjunct discharged at the spec's
example date 2024-07-04 (a Thursday). -/
theorem c6_date_derived_features_witness :
    (Date.valid ⟨2024, 7, 4⟩) ∧
    (Date.quarter ⟨2024, 7, 4⟩ = (7 - 1) / 3 + 1 ∧
     Date.isWeekendFlag ⟨2024, 7, 4⟩ = (if 5 ≤ Date.weekday ⟨2024, 7, 4⟩ then 1 else 0) ∧
     ((Date.weekday ⟨2024, 7, 4⟩ = 5 ∨ Date.weekday ⟨2024, 7, 4⟩ = 6) →
        Date.isWeekendFlag ⟨2024, 7, 4⟩ = 1) ∧
     (Date.weekday ⟨2024, 7, 4⟩ ≤ 4 → Date.isWeekendFlag ⟨2024, 7, 4⟩ = 0) ∧
     (nextDate ⟨2024, 7, 4⟩).weekday = (Date.weekday ⟨2024, 7, 4⟩ + 1) % 7) :=
  ⟨by decide, c6_date_derived_features.1 ⟨2024, 7, 4⟩ (by decide)⟩

theorem getKV_mapVal {α β : Type} (f : α → β) (l : List (String × α)) (k : String) :
    getKV (l.map (fun kv => (kv.1, f kv.2))) k = (getKV l k).map f := by
  induction l with
  | nil => simp [getKV]
  | cons hd tl ih =>
    by_cases hk : hd.1 = k
    · simp [getKV, hk]
    · simp [getKV, hk, ih]

theorem ratTrunc_zero : ratTrunc 0 = 0 := rfl

/-- The hourly example payload with a non-numeric hour value. -/
def examplePayloadHourBadHr : Payload :=
  [("dteday", .str "2024-07-04"), ("hr", .str "abc"), ("season", .num 2),
   ("holiday", .num 0), ("workingday", .num 0), ("weathersit", .num 1),
   ("temp", .num 28), ("atemp", .num 30), ("hum", .num 55)]

/-- Counterexample to C7: with every field present and the hour supplied as
the non-numeric string `abc`, the interactive hourly endpoint fails (the
source's `int(inputs.get('hr', 0))` raises before any cyclical encoding),
instead of computing the cyclical pair with a defaulted hour. -/
theorem c7_counterexample :
    predict_hour ["hr_sin", "hr_cos"] examplePayloadHourBadHr = .error .hrConv := by
  with_unfolding_all rfl

/-- Amended C7: a non-numeric hour string makes the interactive hourly
request fail during integer conversion, before any cyclical encoding, and
a non-numeric hour value fails the whole batch parse; the interactive
derivation step does contain the 0-default the spec describes for hour
values that fail numeric coercion (the `hr` column always exists there),
but it is not reached by a non-numeric supplied hour; and in the batch
path every successful hour-mode run carries an `hr` key, so the 12-default
of the batch cyclical encoding is never exercised (with `hr` absent, the
source raises on the missing column before reaching it). -/
theorem c7_hour_nonnumeric_amended :
    (∀ (schema : List String) (p : Payload) (h : String),
      p ≠ [] → missingFields HOUR_UI_FIELDS p = [] →
      pget p "hr" = some (.str h) → intOfString h = none →
      predict_hour schema p = .error .hrConv) ∧
    parseTxt "hour:abc\ntemp:20\nhum:50\nweather:2" = .error .format ∧
    (∀ (p : Payload) (dt : Date),
      toNumOpt ((pget p "hr").getD .null) = none →
      getKV (hourTable p dt) "hr_sin" = some (.num (.sin2p (((0 : ℤ) : ℚ) / 24))) ∧
      getKV (hourTable p dt) "hr_cos" = some (.num (.cos2p (((0 : ℤ) : ℚ) / 24)))) ∧
    (∀ (ds hs : List String) (fn mp content : String)
        (parsed : List (String × PyNum)) (row : List Cell),
      fileUpload ds hs fn mp content = .ok (.hour, parsed, row) →
      hasKV parsed "hr" = true) := by
  refine ⟨?_, by with_unfolding_all rfl, ?_, ?_⟩
  · intro schema p h hp hm hhr hint
    unfold predict_hour
    rw [if_neg hp, if_neg (by simp [hm])]
    simp [hhr, pyInt, hint]
  · intro p dt h0
    unfold hourTable
    simp [h0, ratTrunc_zero, getKV_coercePass, getKV_dropKV_ne, getKV_setKV_ne,
      getKV_setKV_self, HOUR_NUMERIC_COLS, coerceCell_num]
  · intro ds hs fn mp content parsed row hok
    exact fileUpload_ok_required ds hs fn mp content .hour parsed row hok
      "hr" (by decide)

/-- Witness for the amended C7: all hypotheses discharged on the concrete
bad-hour payload and on a concrete successful hour-mode upload. -/
theorem c7_hour_nonnumeric_amended_witness :
    examplePayloadHourBadHr ≠ [] ∧
    missingFields HOUR_UI_FIELDS examplePayloadHourBadHr = [] ∧
    pget examplePayloadHourBadHr "hr" = some (.str "abc") ∧
    intOfString "abc" = none ∧
    predict_hour ["hr_cos"] examplePayloadHourBadHr = .error .hrConv ∧
    toNumOpt ((pget examplePayloadHourBadHr "hr").getD .null) = none ∧
    getKV (hourTable examplePayloadHourBadHr ⟨2024, 7, 4⟩) "hr_sin" =
      some (.num (.sin2p (((0 : ℤ) : ℚ) / 24))) ∧
    fileUpload [] [] "g.txt" "auto" "hour:8\ntemp:21\nhum:51\nweather:1" =
      .ok (.hour, [("hr", .int 8), ("temp", .int 21), ("hum", .int 51),
        ("weathersit", .int 1)], []) ∧
    hasKV [("hr", PyNum.int 8), ("temp", PyNum.int 21), ("hum", PyNum.int 51),
      ("weathersit", PyNum.int 1)] "hr" = true :=
  ⟨by decide, by decide, by decide, by decide,
   c7_hour_nonnumeric_amended.1 ["hr_cos"] examplePayloadHourBadHr "abc"
     (by decide) (by decide) (by decide) (by decide),
   by decide,
   (c7_hour_nonnumeric_amended.2.2.1 examplePayloadHourBadHr ⟨2024, 7, 4⟩
     (by decide)).1,
   by with_unfolding_all rfl,
   c7_hour_nonnumeric_amended.2.2.2 [] [] "g.txt" "auto"
     "hour:8\ntemp:21\nhum:51\nweather:1"
     [("hr", PyNum.int 8), ("temp", PyNum.int 21), ("hum", PyNum.int 51),
       ("weathersit", PyNum.int 1)] []
     (by with_unfolding_all rfl)⟩

set_option maxRecDepth 4000 in
/-- Counterexample to C8: after 102 appends the last two records in the
history both carry id 101 (each was assigned `len(history) + 1` while the
length was pinned at 100 by eviction), so a record's id is not strictly
greater than the ids of all records appended before it. -/
theorem c8_counterexample :
    (histAfter 102)[98]? = some 101 ∧ (histAfter 102)[99]? = some 101 := by
  constructor <;> decide

/-- Amended C8: the history is bounded at 100 with FIFO eviction on append,
and ids are `length + 1` at append time: they increase strictly only for
the first 100 appends (ids 1..100), and every append once the cap is
reached is assigned id 101. -/
theorem c8_history_bounded_amended :
    (∀ n, (histAfter n).length = min n 100) ∧
    (∀ n, n ≤ 100 → histAfter n = List.range' 1 n) ∧
    (∀ n, 100 ≤ n → (histAfter n).length + 1 = 101) := by
  have hstep : ∀ h : List ℕ,
      (histStep h).length = if 100 < h.length + 1 then h.length else h.length + 1 := by
    intro h
    unfold histStep
    by_cases hc : 100 < h.length + 1
    · rw [if_pos (by simpa using hc), if_pos hc]
      simp only [List.length_drop, List.length_append, List.length_cons,
        List.length_nil]
      omega
    · rw [if_neg (by simpa using hc), if_neg hc]
      simp only [List.length_append, List.length_cons, List.length_nil]
  have hlen : ∀ n, (histAfter n).length = min n 100 := by
    intro n
    induction n with
    | zero => simp [histAfter]
    | succ n ih =>
      rw [histAfter, Function.iterate_succ_apply']
      rw [show histStep^[n] ([] : List ℕ) = histAfter n from rfl, hstep, ih]
      split <;> omega
  refine ⟨hlen, ?_, ?_⟩
  · intro n
    induction n with
    | zero =>
      intro _
      simp [histAfter]
    | succ n ih =>
      intro hn
      rw [histAfter, Function.iterate_succ_apply']
      rw [show histStep^[n] ([] : List ℕ) = histAfter n from rfl, ih (by omega)]
      unfold histStep
      simp only [List.length_append, List.length_range', List.length_cons,
        List.length_nil]
      rw [if_neg (by omega)]
      rw [List.range'_concat]
      congr 2
      omega
  · intro n hn
    rw [hlen]
    omega

/-- Witness for the amended C8: the pre-cap prefix at 3 appends and the
saturated id after 150 appends. -/
theorem c8_history_bounded_amended_witness :
    (3 : ℕ) ≤ 100 ∧ histAfter 3 = List.range' 1 3 ∧
    (100 : ℕ) ≤ 150 ∧ (histAfter 150).length + 1 = 101 :=
  ⟨by decide, c8_history_bounded_amended.2.1 3 (by decide),
   by decide, c8_history_bounded_amended.2.2 150 (by decide)⟩

/-- The daily example payload with an extra field outside the contract. -/
def examplePayloadDayExtra : Payload :=
  examplePayloadDay ++ [("foo", .num 1)]

/-- Counterexample to C9: a daily payload carrying the out-of-contract
field `foo` is accepted (the endpoint filters the payload down to
`DAY_UI_FIELDS` and never inspects other keys), not rejected. -/
theorem c9_counterexample :
    ("foo", JVal.num 1) ∈ examplePayloadDayExtra ∧
    "foo" ∉ DAY_UI_FIELDS ∧
    predict_day ["yr"] examplePayloadDayExtra = .ok [Cell.num (.rat 2024)] :=
  ⟨by decide, by decide, by with_unfolding_all rfl⟩

/-- Amended C9: each endpoint consults exactly its contract field set:
fields outside the contract are silently ignored, so two non-empty
payloads agreeing on the contract fields produce identical outcomes.
Requests are rejected only for missing or empty contract fields, never for
extra fields. -/
theorem c9_contract_fields_amended :
    (∀ (schema : List String) (p p2 : Payload), p ≠ [] → p2 ≠ [] →
      (∀ k ∈ DAY_UI_FIELDS, pget p k = pget p2 k) →
      predict_day schema p = predict_day schema p2) ∧
    (∀ (schema : List String) (p p2 : Payload), p ≠ [] → p2 ≠ [] →
      (∀ k ∈ HOUR_UI_FIELDS, pget p k = pget p2 k) →
      predict_hour schema p = predict_hour schema p2) := by
  have hmiss : ∀ (fields : List String) (p p2 : Payload),
      (∀ k ∈ fields, pget p k = pget p2 k) →
      missingFields fields p = missingFields fields p2 := by
    intro fields p p2 h
    unfold missingFields
    exact List.filter_congr (fun k hk => by rw [h k hk])
  have hinp : ∀ (fields : List String) (p p2 : Payload),
      (∀ k ∈ fields, pget p k = pget p2 k) →
      inputTable fields p = inputTable fields p2 := by
    intro fields p p2 h
    unfold inputTable
    exact List.map_congr_left (fun k hk => by rw [h k hk])
  constructor
  · intro schema p p2 hp hp2 h
    have hdt : ∀ dt, dayTable p dt = dayTable p2 dt := by
      intro dt
      unfold dayTable
      rw [hinp DAY_UI_FIELDS p p2 h, h "temp" (by decide), h "hum" (by decide)]
    unfold predict_day
    rw [if_neg hp, if_neg hp2, hmiss DAY_UI_FIELDS p p2 h, h "dteday" (by decide)]
    simp only [hdt]
  · intro schema p p2 hp hp2 h
    have hdt : ∀ dt, hourTable p dt = hourTable p2 dt := by
      intro dt
      unfold hourTable
      rw [hinp HOUR_UI_FIELDS p p2 h, h "temp" (by decide), h "hr" (by decide)]
      rw [h "hum" (by decide)]
    unfold predict_hour
    rw [if_neg hp, if_neg hp2, hmiss HOUR_UI_FIELDS p p2 h, h "dteday" (by decide),
      h "hr" (by decide)]
    simp only [hdt]

/-- Witness for the amended C9: the extra-field payload and the clean
payload agree on the contract fields and get the same outcome. -/
theorem c9_contract_fields_amended_witness :
    examplePayloadDayExtra ≠ [] ∧ examplePayloadDay ≠ [] ∧
    (∀ k ∈ DAY_UI_FIELDS, pget examplePayloadDayExtra k = pget examplePayloadDay k) ∧
    predict_day ["yr"] examplePayloadDayExtra = predict_day ["yr"] examplePayloadDay :=
  ⟨by decide, by decide, by decide,
   c9_contract_fields_amended.1 ["yr"] examplePayloadDayExtra examplePayloadDay
     (by decide) (by decide) (by decide)⟩

/-- Claim C10: the peak-status label depends only on the demand value and
never on the hour argument: `Normal` when demand is absent, `Peak` above
400, `Normal` in (200, 400], `Off-Peak` otherwise — identically for daily
calls (no hour) and hourly calls (hour supplied). -/
theorem c10_peak_status_ignores_hour :
    (∀ (h h2 : Option ℤ) (d : Option ℤ),
      calculatePeakStatus h d = calculatePeakStatus h2 d) ∧
    (∀ h : Option ℤ, calculatePeakStatus h none = "Normal") ∧
    (∀ (h : Option ℤ) (d : ℤ), 400 < d →
      calculatePeakStatus h (some d) = "Peak") ∧
    (∀ (h : Option ℤ) (d : ℤ), 200 < d → d ≤ 400 →
      calculatePeakStatus h (some d) = "Normal") ∧
    (∀ (h : Option ℤ) (d : ℤ), d ≤ 200 →
      calculatePeakStatus h (some d) = "Off-Peak") := by
  refine ⟨?_, fun _ => rfl, ?_, ?_, ?_⟩
  · intro h h2 d
    rfl
  · intro h d hd
    simp [calculatePeakStatus, hd]
  · intro h d hd1 hd2
    simp [calculatePeakStatus, hd1, show ¬ (400 : ℤ) < d by omega]
  · intro h d hd
    simp [calculatePeakStatus, show ¬ (400 : ℤ) < d by omega,
      show ¬ (200 : ℤ) < d by omega]

/-- Witness for C10: the branch conjuncts at concrete demands, with and
without an hour. -/
theorem c10_peak_status_ignores_hour_witness :
    calculatePeakStatus (some 8) (some 450) = calculatePeakStatus none (some 450) ∧
    calculatePeakStatus none none = "Normal" ∧
    ((400 : ℤ) < 450 ∧ calculatePeakStatus (some 8) (some 450) = "Peak") ∧
    ((200 : ℤ) < 300 ∧ (300 : ℤ) ≤ 400 ∧ calculatePeakStatus none (some 300) = "Normal") ∧
    ((150 : ℤ) ≤ 200 ∧ calculatePeakStatus (some 17) (some 150) = "Off-Peak") :=
  ⟨c10_peak_status_ignores_hour.1 (some 8) none (some 450),
   c10_peak_status_ignores_hour.2.1 none,
   ⟨by decide, c10_peak_status_ignores_hour.2.2.1 (some 8) 450 (by decide)⟩,
   ⟨by decide, by decide, c10_peak_status_ignores_hour.2.2.2.1 none 300 (by decide) (by decide)⟩,
   ⟨by decide, c10_peak_status_ignores_hour.2.2.2.2 (some 17) 150 (by decide)⟩⟩
